import Mathlib

/-!
Shallow embedding of the Personalized Retrieval & Context Fusion Engine of
the woocommerce-ai-recommendations repository (files `astra_client.py` and
`langflow_integration.py`).

Conventions of the embedding:
* Python floats are modelled as exact rationals (`ℚ`); the spec treats the
  scores as opaque real numbers.
* Python `str` is `String`, Python `int` is `Int`, Python lists are `List`.
* External collaborators (the OpenAI embedder, the AstraDB vector store)
  are passed in as explicit arguments: a call of
  `openai.embeddings.create` is an `Except String (List ℚ)` outcome
  (`.error` models a raised exception), and `vector_find` is a function
  from the requested candidate count to the list of raw records returned.
* In-place mutation of `SearchResult.similarity_score` and of the
  `UserContext` fields becomes explicit state passing: each mutating block
  of the Python source is a function from the old value to the new value.
* Fallible record conversion (`try`/`except` around field access) becomes
  `Option`-returning conversion.
-/

namespace WooRec

/-- Conversation message, modelling the role/content/timestamp dicts
appended in `langflow_integration.get_recommendations`. -/
structure Message where
  role : String
  content : String
  timestamp : String
deriving Repr, DecidableEq

/-- Model of the `astra_client.SearchResult` dataclass. -/
structure SearchResult where
  product_id : Int
  name : String
  description : String
  categories : List String
  tags : List String
  price : String
  image_url : Option String
  permalink : Option String
  similarity_score : ℚ
  stock_status : String
  rating : ℚ
deriving Repr, DecidableEq

/-- Model of the `astra_client.UserContext` dataclass.  `preferences` is
an opaque key/value bag; timestamps are ISO strings as stored by the
code. -/
structure UserContext where
  session_id : String
  preferences : List (String × String)
  conversation_history : List Message
  last_search_query : Option String
  viewed_products : List Int
  interested_categories : List String
  budget_range : Option (ℚ × ℚ)
  created_at : String
  updated_at : String
deriving Repr, DecidableEq

/-- A raw document returned by the vector store (`vector_find`).  Every
field is optional: the Python dict may miss any key, and mandatory-field
access (`result["name"]`) raising `KeyError` is modelled by `Option`. -/
structure RawRecord where
  product_id : Option Int
  name : Option String
  description : Option String
  categories : Option (List String)
  tags : Option (List String)
  price : Option String
  image_url : Option String
  permalink : Option String
  similarity : Option ℚ
  stock_status : Option String
  rating : Option ℚ
deriving Repr, DecidableEq

/-! ### Python list-slicing helpers -/

/-- Python `xs[:n]` (also for negative `n`: `xs[:-k]` keeps `len - k`
elements, clamped at zero). -/
def pySlice (n : Int) (xs : List α) : List α :=
  if 0 ≤ n then xs.take n.toNat else xs.take (xs.length - (-n).toNat)

/-- Python `xs[-n:]` for `n > 0`: keep the last `n` elements (the whole
list when it is shorter than `n`). -/
def pyTakeLast (n : Nat) (xs : List α) : List α :=
  xs.drop (xs.length - n)

/-! ### Price parsing

`_personalize_results` evaluates
`float(result.price.replace(',', '').replace('₹', ''))`, catching
`ValueError`.  We model the character removal exactly and Python's
`float()` on plain decimal numerals: optional surrounding whitespace,
optional sign, an integer part and/or a fractional part with at least one
digit overall.  (`float` also accepts exponents and named constants; the
price strings of this system are plain numerals, so those are out of the
modelled subset.) -/

/-- Numeric value of a digit string (no emptiness check). -/
def digitsVal (cs : List Char) : Nat :=
  cs.foldl (fun a c => 10 * a + (c.toNat - 48)) 0

/-- Parse an unsigned decimal numeral `digits [. digits]` where at least
one digit is present; `none` on anything else. -/
def parseUnsigned (cs : List Char) : Option ℚ :=
  let intPart := cs.takeWhile (fun c => c ≠ '.')
  match cs.dropWhile (fun c => c ≠ '.') with
  | [] =>
    if intPart ≠ [] ∧ intPart.all Char.isDigit then
      some (digitsVal intPart : ℚ)
    else none
  | '.' :: fracPart =>
    if (intPart ≠ [] ∨ fracPart ≠ []) ∧ intPart.all Char.isDigit
        ∧ fracPart.all Char.isDigit then
      some ((digitsVal intPart : ℚ)
        + (digitsVal fracPart : ℚ) / ((10 : ℚ) ^ fracPart.length))
    else none
  | _ => none

/-- Strip leading and trailing whitespace from a character list
(Python `float` ignores surrounding whitespace). -/
def trimChars (cs : List Char) : List Char :=
  (((cs.dropWhile Char.isWhitespace).reverse).dropWhile
    Char.isWhitespace).reverse

/-- Model of Python `float(s)` on plain decimal numerals. -/
def pyFloat (s : String) : Option ℚ :=
  match trimChars s.toList with
  | '-' :: rest => (parseUnsigned rest).map (fun q => -q)
  | '+' :: rest => parseUnsigned rest
  | cs => parseUnsigned cs

/-- Price parsing of `_personalize_results`:
`result.price.replace(',', '').replace('₹', '')` followed by
`float(...)`; `none` models the caught `ValueError`. -/
def parsePrice (s : String) : Option ℚ :=
  pyFloat (String.mk (s.toList.filter (fun c => c ≠ ',' ∧ c ≠ '₹')))

/-! ### Personalization ranker (`IntelligentAstraClient._personalize_results`) -/

/-- Body of the `for result in results` loop of `_personalize_results`:
the three sequential in-place score adjustments, as explicit state
passing on one result. -/
def personalizeOne (user_context : UserContext) (result : SearchResult) :
    SearchResult :=
  -- Category preference boost
  let s1 :=
    if result.categories.any
        (fun cat => cat ∈ user_context.interested_categories) then
      result.similarity_score + 1/10
    else result.similarity_score
  -- Budget range filtering
  let s2 :=
    match user_context.budget_range with
    | none => s1
    | some (min_budget, max_budget) =>
      match parsePrice result.price with
      | none => s1
      | some price =>
        if min_budget ≤ price ∧ price ≤ max_budget then s1 + 5/100
        else if max_budget < price then s1 - 1/10
        else s1
  -- Previously viewed products (slight penalty)
  let s3 :=
    if result.product_id ∈ user_context.viewed_products then s2 - 2/100
    else s2
  { result with similarity_score := s3 }

/-- Model of `IntelligentAstraClient._personalize_results`. -/
def personalize_results (results : List SearchResult)
    (user_context : UserContext) : List SearchResult :=
  results.map (personalizeOne user_context)

/-! ### Stable descending sort

`search_results.sort(key=lambda x: x.similarity_score, reverse=True)` is a
stable sort, descending by score: an element is placed after every earlier
element whose key is greater than or equal to its own. -/

/-- Insert `a` after every element whose key is ≥ its own (stability for
equal keys). -/
def insertDesc (key : α → ℚ) (a : α) : List α → List α
  | [] => [a]
  | b :: bs =>
    if key a ≤ key b then b :: insertDesc key a bs else a :: b :: bs

/-- Stable descending insertion sort, modelling Python's stable
`list.sort(key=..., reverse=True)`. -/
def sortDesc (key : α → ℚ) (xs : List α) : List α :=
  xs.foldl (fun acc a => insertDesc key a acc) []

/-! ### Similarity retriever (`IntelligentAstraClient.semantic_search`) -/

/-- Model of `IntelligentAstraClient.generate_query_embedding`: returns
the embedder's vector, or `[]` when the embedder raised. -/
def generate_query_embedding (resp : Except String (List ℚ)) : List ℚ :=
  match resp with
  | .ok v => v
  | .error _ => []

/-- Conversion of one raw store record into a `SearchResult`
(`semantic_search`, lines 176–192).  The mandatory fields `product_id`,
`name`, `description`, `price` are read with `result[...]`; a missing one
raises `KeyError`, caught per record (`none`).  The remaining fields use
`result.get(...)` with the code's defaults. -/
def toSearchResult (r : RawRecord) : Option SearchResult :=
  match r.product_id, r.name, r.description, r.price with
  | some pid, some nm, some ds, some pr =>
    some { product_id := pid
           name := nm
           description := ds
           categories := r.categories.getD []
           tags := r.tags.getD []
           price := pr
           image_url := r.image_url
           permalink := r.permalink
           similarity_score := r.similarity.getD 0
           stock_status := r.stock_status.getD "outofstock"
           rating := r.rating.getD 0 }
  | _, _, _, _ => none

/-- Model of `IntelligentAstraClient.semantic_search`.  `embedResp` is the
embedder outcome; `store k` is what `vector_find` returns when asked for
`k` candidates (the code asks for `limit * 2`).  Records failing
conversion are dropped; personalization applies when a context is given;
results are stably sorted descending by score and sliced to `limit`. -/
def semantic_search (embedResp : Except String (List ℚ))
    (store : Int → List RawRecord) (limit : Int)
    (user_context : Option UserContext) : List SearchResult :=
  let query_embedding := generate_query_embedding embedResp
  if query_embedding = [] then []
  else
    let results := store (limit * 2)
    let search_results := results.filterMap toSearchResult
    let search_results :=
      match user_context with
      | some ctx => personalize_results search_results ctx
      | none => search_results
    pySlice limit (sortDesc (fun x => x.similarity_score) search_results)

/-! ### Context fusion (`IntelligentRecommendationService.get_recommendations`,
lines 247–268) and the product-view flow
(`IntelligentRecommendationService.get_product_recommendations`,
lines 318–325). -/

/-- Model of `list(set(xs))` for CPython string sets: the distinct
elements, in first-occurrence order (a modelling choice for the set's
iteration order; no theorem below depends on which order the set
iterates in). -/
def listSet (xs : List String) : List String :=
  xs.foldl (fun acc c => if c ∈ acc then acc else acc ++ [c]) []

/-- The `for category in result_categories` loop: append each distinct
category of the results that is not already present. -/
def appendNewCats (cats : List String) (results : List SearchResult) :
    List String :=
  (listSet (results.flatMap (fun r => r.categories))).foldl
    (fun acc c => if c ∈ acc then acc else acc ++ [c]) cats

/-- Context-update block of `get_recommendations` (lines 247–268), as a
pure function: append the user/assistant message pair, set the last
query, fold in the categories of `search_results`, then truncate the
history to the last 20 entries and the categories to the last 10.
`now` is the fusion-time timestamp. -/
def fuse_context (ctx : UserContext) (query : String)
    (responseText : String) (search_results : List SearchResult)
    (now : String) : UserContext :=
  let history := ctx.conversation_history
    ++ [{ role := "user", content := query, timestamp := now },
        { role := "assistant", content := responseText, timestamp := now }]
  let cats := appendNewCats ctx.interested_categories search_results
  { ctx with
    conversation_history := pyTakeLast 20 history
    last_search_query := some query
    interested_categories := pyTakeLast 10 cats }

/-- Context-update block of `get_product_recommendations`
(lines 322–324): append the viewed product only when absent, then keep
the last 50 entries.  When the identifier is already present nothing at
all happens (no re-append, no recency refresh, no truncation). -/
def record_product_view (ctx : UserContext) (product_id : Int) :
    UserContext :=
  if product_id ∈ ctx.viewed_products then ctx
  else { ctx with
    viewed_products := pyTakeLast 50 (ctx.viewed_products ++ [product_id]) }

/-- The search path of `get_recommendations` relevant to context fusion:
run `semantic_search` (whose return value is already truncated to
`limit`), then fuse that very list into the context.  Returns the fused
context together with the result list handed to the caller. -/
def get_recommendations_model (ctx : UserContext)
    (embedResp : Except String (List ℚ)) (store : Int → List RawRecord)
    (query responseText now : String) (limit : Int) :
    UserContext × List SearchResult :=
  let search_results := semantic_search embedResp store limit (some ctx)
  (fuse_context ctx query responseText search_results now, search_results)

/-- One session interaction, for stating the bounded-growth invariant:
either a completed search fusion or a recorded product view. -/
inductive Interaction where
  | search (query responseText now : String)
      (search_results : List SearchResult)
  | view (product_id : Int)

/-- Apply one interaction's context update. -/
def applyInteraction (ctx : UserContext) : Interaction → UserContext
  | .search q r now rs => fuse_context ctx q r rs now
  | .view pid => record_product_view ctx pid

/-- The bounded-growth caps of the session context. -/
def capsOK (ctx : UserContext) : Prop :=
  ctx.conversation_history.length ≤ 20
  ∧ ctx.viewed_products.length ≤ 50
  ∧ ctx.interested_categories.length ≤ 10

instance : DecidablePred capsOK := fun ctx => by
  unfold capsOK; infer_instance

/-- The fresh context created by `get_recommendations` for an unknown
session identifier: all collections empty, no budget. -/
def freshContext (session_id : String) (now : String) : UserContext :=
  { session_id := session_id
    preferences := []
    conversation_history := []
    last_search_query := none
    viewed_products := []
    interested_categories := []
    budget_range := none
    created_at := now
    updated_at := now }

/-! ### Per-product recommendations
(`IntelligentAstraClient.get_recommendations_for_product`) -/

/-- A product document as stored in the products collection; only the
`$vector` field is read by `get_recommendations_for_product`. -/
structure ProductDoc where
  vector : Option (List ℚ)
deriving Repr

/-- The `for result in results` loop of
`get_recommendations_for_product` (lines 379–395): skip the original
product, convert the rest.  Unlike `semantic_search` there is no
per-record `try`, so a record with a missing mandatory field (including
a missing `product_id` read in the comparison itself) raises out of the
loop and the outer handler returns the empty list: modelled by `none`. -/
def collectRecs (product_id : Int) : List RawRecord →
    Option (List SearchResult)
  | [] => some []
  | r :: rs =>
    match r.product_id with
    | none => none
    | some rpid =>
      if rpid ≠ product_id then
        match toSearchResult r with
        | none => none
        | some sr => (collectRecs product_id rs).map (fun l => sr :: l)
      else collectRecs product_id rs

/-- Model of `IntelligentAstraClient.get_recommendations_for_product`.
`find_one` is what the products collection returns for the queried id;
`neighbors v k` is what `vector_find` returns for vector `v` and
requested count `k` (the code asks for `limit + 1`). -/
def get_recommendations_for_product (find_one : Option ProductDoc)
    (neighbors : List ℚ → Int → List RawRecord) (product_id : Int)
    (limit : Int) : List SearchResult :=
  match find_one with
  | none => []
  | some product =>
    match product.vector with
    | none => []
    | some v =>
      let results := neighbors v (limit + 1)
      match collectRecs product_id results with
      | none => []
      | some recommendations => pySlice limit recommendations

/-! ### Concrete fixtures (the worked scenario of the spec, §8) -/

/-- Session context of the spec's worked scenario: interested in
"Mobility", budget `(1000, 5000)`, item 42 already viewed. -/
def ctxScenario : UserContext :=
  { session_id := "s"
    preferences := []
    conversation_history := []
    last_search_query := none
    viewed_products := [42]
    interested_categories := ["Mobility"]
    budget_range := some (1000, 5000)
    created_at := ""
    updated_at := "" }

/-- Candidate 42 of the scenario: category "Mobility", price "3000",
raw similarity 0.80. -/
def raw42 : RawRecord :=
  { product_id := some 42
    name := some "Wheelchair"
    description := some "d"
    categories := some ["Mobility"]
    tags := none
    price := some "3000"
    image_url := none
    permalink := none
    similarity := some (8/10)
    stock_status := some "instock"
    rating := some 4 }

/-- Candidate 7 of the scenario: category "Electronics", price "6000",
raw similarity 0.85. -/
def raw7 : RawRecord :=
  { product_id := some 7
    name := some "Phone"
    description := some "d"
    categories := some ["Electronics"]
    tags := none
    price := some "6000"
    image_url := none
    permalink := none
    similarity := some (85/100)
    stock_status := some "instock"
    rating := some 4 }

/-- A vector store holding exactly the two scenario candidates. -/
def storeScenario : Int → List RawRecord := fun _ => [raw42, raw7]

/-! ### Helper lemmas -/

theorem pyTakeLast_length_le (n : Nat) (xs : List α) :
    (pyTakeLast n xs).length ≤ n := by
  simp only [pyTakeLast, List.length_drop]
  omega

theorem pyTakeLast_suffix (n : Nat) (xs : List α) :
    pyTakeLast n xs <:+ xs :=
  ⟨xs.take (xs.length - n), List.take_append_drop _ xs⟩

theorem pyTakeLast_of_length_le (n : Nat) (xs : List α)
    (h : xs.length ≤ n) : pyTakeLast n xs = xs := by
  simp only [pyTakeLast]
  rw [Nat.sub_eq_zero_of_le h, List.drop_zero]

/-- Membership in the duplicate-suppressing append fold. -/
theorem mem_dedupFold (ys : List String) (acc : List String) (a : String) :
    a ∈ ys.foldl (fun acc c => if c ∈ acc then acc else acc ++ [c]) acc ↔
      a ∈ acc ∨ a ∈ ys := by
  induction ys generalizing acc with
  | nil => simp
  | cons y ys ih =>
    simp only [List.foldl_cons]
    by_cases h : y ∈ acc
    · rw [if_pos h, ih]
      constructor
      · rintro (ha | hy)
        · exact Or.inl ha
        · exact Or.inr (List.mem_cons_of_mem _ hy)
      · rintro (ha | hy)
        · exact Or.inl ha
        · rcases List.mem_cons.mp hy with rfl | hy
          · exact Or.inl h
          · exact Or.inr hy
    · rw [if_neg h, ih]
      simp only [List.mem_append, List.mem_singleton, List.mem_cons]
      tauto

theorem mem_appendNewCats (cats : List String)
    (results : List SearchResult) (a : String) :
    a ∈ appendNewCats cats results ↔
      a ∈ cats ∨ a ∈ results.flatMap (fun r => r.categories) := by
  unfold appendNewCats listSet
  rw [mem_dedupFold, mem_dedupFold]
  simp

/-- A record that converts successfully keeps its product identifier. -/
theorem toSearchResult_product_id (r : RawRecord) (sr : SearchResult)
    (h : toSearchResult r = some sr) : r.product_id = some sr.product_id := by
  unfold toSearchResult at h
  split at h
  · rename_i pid nm ds pr h1 h2 h3 h4
    injection h with h
    rw [← h]
    exact h1
  · exact absurd h (by simp)

/-- Everything collected by `collectRecs` has an identifier different
from the queried product's. -/
theorem collectRecs_excludes (pid : Int) (records : List RawRecord)
    (l : List SearchResult) (h : collectRecs pid records = some l) :
    ∀ r ∈ l, r.product_id ≠ pid := by
  induction records generalizing l with
  | nil =>
    simp only [collectRecs, Option.some.injEq] at h
    subst h; simp
  | cons rec recs ih =>
    unfold collectRecs at h
    split at h
    · exact absurd h (by simp)
    · rename_i rpid h1
      split at h
      · rename_i h2
        split at h
        · exact absurd h (by simp)
        · rename_i sr h3
          rcases Option.map_eq_some'.mp h with ⟨l', hl', rfl⟩
          intro r hr
          rcases List.mem_cons.mp hr with rfl | hr
          · have h4 := toSearchResult_product_id rec r h3
            rw [h1] at h4
            injection h4 with h4
            rw [← h4]; exact h2
          · exact ih l' hl' r hr
      · exact ih l h

theorem capsOK_applyInteraction (ctx : UserContext) (h : capsOK ctx)
    (op : Interaction) : capsOK (applyInteraction ctx op) := by
  obtain ⟨h1, h2, h3⟩ := h
  cases op with
  | search q r now rs =>
    exact ⟨pyTakeLast_length_le _ _, h2, pyTakeLast_length_le _ _⟩
  | view pid =>
    by_cases hv : pid ∈ ctx.viewed_products
    · simp only [applyInteraction, record_product_view, if_pos hv]
      exact ⟨h1, h2, h3⟩
    · simp only [applyInteraction, record_product_view, if_neg hv]
      exact ⟨h1, pyTakeLast_length_le _ _, h3⟩

theorem capsOK_foldl (ctx : UserContext) (h : capsOK ctx)
    (ops : List Interaction) : capsOK (ops.foldl applyInteraction ctx) := by
  induction ops generalizing ctx with
  | nil => exact h
  | cons op ops ih => exact ih _ (capsOK_applyInteraction ctx h op)

theorem pySlice_subset (n : Int) (xs : List α) : pySlice n xs ⊆ xs := by
  unfold pySlice
  split <;> exact List.take_subset _ _

theorem pySlice_length_le (n : Int) (xs : List α) (h : 0 ≤ n) :
    ((pySlice n xs).length : Int) ≤ n := by
  unfold pySlice
  rw [if_pos h]
  have := List.length_take_le n.toNat xs
  omega

/-! ### Claim theorems -/

/-- C1: For every result and every session context, the personalization
step adjusts the score by exactly the sum of: `+0.10` when the result's
categories intersect the context's interested categories (once,
regardless of overlap size); when a budget range is set and the price
string parses, `+0.05` inside the inclusive range, `−0.10` above the
upper bound, `0` below the lower bound (and `0`, silently, when the
price does not parse); and `−0.02` when the item identifier is among the
viewed products.  Nothing else about the result is changed. -/
theorem C1_personalize_score_adjustment (ctx : UserContext)
    (r : SearchResult) :
    (personalizeOne ctx r).similarity_score =
      r.similarity_score
      + (if r.categories.any
            (fun cat => cat ∈ ctx.interested_categories) then (1/10 : ℚ)
         else 0)
      + (match ctx.budget_range, parsePrice r.price with
         | some (min_budget, max_budget), some price =>
           if min_budget ≤ price ∧ price ≤ max_budget then (5/100 : ℚ)
           else if max_budget < price then -(1/10) else 0
         | _, _ => 0)
      + (if r.product_id ∈ ctx.viewed_products then -(2/100 : ℚ) else 0)
    ∧ personalizeOne ctx r =
        { r with similarity_score := (personalizeOne ctx r).similarity_score } := by
  constructor
  · simp only [personalizeOne]
    cases hb : ctx.budget_range with
    | none =>
      simp only [hb]
      split_ifs <;> ring
    | some b =>
      obtain ⟨lo, hi⟩ := b
      simp only [hb]
      cases hp : parsePrice r.price with
      | none => simp only [hp]; split_ifs <;> ring
      | some p => simp only [hp]; split_ifs <;> ring
  · rfl

section
-- The core arithmetic of `Rat` is `[irreducible]`, which blocks `decide`
-- from evaluating concrete score computations; restore the definitional
-- unfolding locally for the ground instances below.
attribute [local semireducible] Rat.mul Rat.add Rat.sub Rat.inv

/-- C2: On the spec's worked scenario (context interested in "Mobility",
budget `(1000, 5000)`, item 42 viewed; candidates id 42 at raw 0.80 and
id 7 at raw 0.85), the post-rank scores are 0.93 for id 42 and 0.75 for
id 7, the output order is `[42, 7]`, and a request with `limit = 1`
returns exactly the single result with id 42. -/
theorem C2_worked_scenario :
    (semantic_search (.ok [1]) storeScenario 2 (some ctxScenario)).map
        (fun r => (r.product_id, r.similarity_score)) =
      [(42, 93/100), (7, 75/100)]
    ∧ (semantic_search (.ok [1]) storeScenario 1 (some ctxScenario)).map
        (fun r => r.product_id) = [42] := by
  decide

end

/-- C3: Starting from any context satisfying the caps (in particular the
fresh context, which does), every sequence of search fusions and
product-view updates keeps `conversationHistory ≤ 20`,
`viewedItems ≤ 50` and `interestedCategories ≤ 10`; and each update
evicts oldest-first: the new history is a suffix of the old history plus
the appended pair, the new categories are a suffix of the
append-if-absent extension, and a newly viewed item list is a suffix of
the old list plus the new identifier (an already-present identifier
changes nothing). -/
theorem C3_bounded_growth (ctx : UserContext) (h : capsOK ctx)
    (ops : List Interaction) (q r now sid now₀ : String)
    (rs : List SearchResult) (pid : Int) :
    capsOK (ops.foldl applyInteraction ctx)
    ∧ capsOK (freshContext sid now₀)
    ∧ (fuse_context ctx q r rs now).conversation_history <:+
        ctx.conversation_history
          ++ [{ role := "user", content := q, timestamp := now },
              { role := "assistant", content := r, timestamp := now }]
    ∧ (fuse_context ctx q r rs now).interested_categories <:+
        appendNewCats ctx.interested_categories rs
    ∧ (pid ∉ ctx.viewed_products →
        (record_product_view ctx pid).viewed_products <:+
          ctx.viewed_products ++ [pid])
    ∧ (pid ∈ ctx.viewed_products → record_product_view ctx pid = ctx) := by
  refine ⟨capsOK_foldl ctx h ops,
    ⟨Nat.zero_le _, Nat.zero_le _, Nat.zero_le _⟩,
    pyTakeLast_suffix _ _, pyTakeLast_suffix _ _, ?_, ?_⟩
  · intro hv
    simp only [record_product_view, if_neg hv]
    exact pyTakeLast_suffix _ _
  · intro hv
    simp only [record_product_view, if_pos hv]

theorem C3_bounded_growth_witness :
    capsOK (freshContext "s" "t0")
    ∧ capsOK
        ([Interaction.view 1, Interaction.search "q" "r" "t1" []].foldl
          applyInteraction (freshContext "s" "t0")) :=
  ⟨by decide,
    (C3_bounded_growth (freshContext "s" "t0") (by decide)
      [Interaction.view 1, Interaction.search "q" "r" "t1" []]
      "q" "r" "t1" "s" "t0" [] 1).1⟩

section
attribute [local semireducible] Rat.mul Rat.add Rat.sub Rat.inv

/-- C4 counterexample: run the search path on a fresh context with
`limit = 1` over the two scenario candidates.  Among all candidates
considered during ranking (the store's response to the oversized
request for `limit * 2` records) the category "Mobility" occurs, the
fused category list is far below its cap of 10, and yet "Mobility" is
not appended: categories are in fact collected only from the truncated
top-`limit` list, refuting the claim that they are collected from the
full candidate set. -/
theorem C4_counterexample :
    "Mobility" ∈ ((storeScenario (1 * 2)).filterMap toSearchResult).flatMap
        (fun r => r.categories)
    ∧ (get_recommendations_model (freshContext "s" "t0") (.ok [1])
        storeScenario "q" "resp" "t1" 1).1.interested_categories.length ≤ 10
    ∧ "Mobility" ∉ (get_recommendations_model (freshContext "s" "t0") (.ok [1])
        storeScenario "q" "resp" "t1" 1).1.interested_categories := by
  decide

end

/-- C4 (amended): during context fusion after a search, the distinct
categories appended to `interestedCategories` are collected only from
the truncated top-`limit` result list returned by the retrieval step —
the same list returned to the caller — not from the full oversized
candidate set; each such category not already present is appended, and
the sequence is then truncated to the most recent 10 (a suffix of the
appended extension). -/
theorem C4_categories_from_returned_results (ctx : UserContext)
    (embedResp : Except String (List ℚ)) (store : Int → List RawRecord)
    (q r now : String) (limit : Int) :
    (get_recommendations_model ctx embedResp store q r now
        limit).1.interested_categories <:+
      appendNewCats ctx.interested_categories
        (semantic_search embedResp store limit (some ctx))
    ∧ (get_recommendations_model ctx embedResp store q r now
        limit).1.interested_categories.length ≤ 10
    ∧ (get_recommendations_model ctx embedResp store q r now
        limit).1.interested_categories ⊆
        ctx.interested_categories
          ++ (semantic_search embedResp store limit (some ctx)).flatMap
              (fun x => x.categories) := by
  refine ⟨pyTakeLast_suffix _ _, pyTakeLast_length_le _ _, ?_⟩
  intro a ha
  have h1 : a ∈ appendNewCats ctx.interested_categories
      (semantic_search embedResp store limit (some ctx)) :=
    (pyTakeLast_suffix _ _).subset ha
  rw [mem_appendNewCats] at h1
  rw [List.mem_append]
  exact h1

theorem C4_categories_from_returned_results_witness :
    (get_recommendations_model ctxScenario (.ok [1]) storeScenario
        "q" "r" "t" 2).1.interested_categories.length ≤ 10 :=
  (C4_categories_from_returned_results ctxScenario (.ok [1]) storeScenario
    "q" "r" "t" 2).2.1

/-- C5: Fusing one completed interaction appends exactly one `user` and
one `assistant` message: the history length becomes
`min (previous + 2) 20` (growth by exactly 2 until the cap of 20), and
away from the cap the new history is literally the old history plus the
pair.  Fusing the same `(query, results, response)` twice appends two
distinct message pairs with no deduplication. -/
theorem C5_fusion_appends_two (ctx ctx₂ : UserContext)
    (q r now now' : String) (rs rs' : List SearchResult)
    (h : ctx.conversation_history.length ≤ 16) :
    (fuse_context ctx₂ q r rs now).conversation_history.length =
      min (ctx₂.conversation_history.length + 2) 20
    ∧ (fuse_context ctx q r rs now).conversation_history =
        ctx.conversation_history
          ++ [{ role := "user", content := q, timestamp := now },
              { role := "assistant", content := r, timestamp := now }]
    ∧ (fuse_context (fuse_context ctx q r rs now) q r rs'
          now').conversation_history =
        ctx.conversation_history
          ++ [{ role := "user", content := q, timestamp := now },
              { role := "assistant", content := r, timestamp := now },
              { role := "user", content := q, timestamp := now' },
              { role := "assistant", content := r, timestamp := now' }] := by
  have hone : (fuse_context ctx q r rs now).conversation_history =
      ctx.conversation_history
        ++ [{ role := "user", content := q, timestamp := now },
            { role := "assistant", content := r, timestamp := now }] := by
    show pyTakeLast 20 _ = _
    apply pyTakeLast_of_length_le
    simp only [List.length_append, List.length_cons, List.length_nil]
    omega
  refine ⟨?_, hone, ?_⟩
  · show (pyTakeLast 20 _).length = _
    simp only [pyTakeLast, List.length_drop, List.length_append,
      List.length_cons, List.length_nil]
    omega
  · show pyTakeLast 20 ((fuse_context ctx q r rs now).conversation_history
        ++ _) = _
    rw [hone]
    rw [List.append_assoc]
    apply pyTakeLast_of_length_le
    simp only [List.length_append, List.length_cons, List.length_nil]
    omega

theorem C5_fusion_appends_two_witness :
    (freshContext "s" "t0").conversation_history.length ≤ 16
    ∧ (fuse_context (freshContext "s" "t0") "q" "r" [] "t1"
        ).conversation_history.length =
      min ((freshContext "s" "t0").conversation_history.length + 2) 20 :=
  ⟨by decide,
    (C5_fusion_appends_two (freshContext "s" "t0") (freshContext "s" "t0")
      "q" "r" "t1" "t2" [] [] (by decide)).1⟩

section
attribute [local semireducible] Rat.mul Rat.add Rat.sub Rat.inv

/-- C6 counterexample: with a non-positive limit the search is not
corrected to a minimum limit of 1.  On the scenario store, `limit = 0`
returns the empty list, while the behaviour "as if the minimum limit
had been supplied" (`limit = 1`) returns the result with id 42. -/
theorem C6_counterexample :
    semantic_search (.ok [1]) storeScenario 0 (some ctxScenario) = []
    ∧ (semantic_search (.ok [1]) storeScenario 1 (some ctxScenario)).map
        (fun r => r.product_id) = [42] := by
  decide

end

/-- C6 (amended): a non-positive limit is never corrected — no layer of
the search path validates it.  The request is not rejected (the search
still returns a list, never an error), but the limit is used as given:
with `limit = 0` the final slice keeps zero results, so the empty list
is returned for every embedder outcome, every store and every context —
not a result list as if the minimum limit 1 had been supplied. -/
theorem C6_zero_limit_returns_empty (embedResp : Except String (List ℚ))
    (store : Int → List RawRecord) (uc : Option UserContext) :
    semantic_search embedResp store 0 uc = [] := by
  by_cases h : generate_query_embedding embedResp = []
  · simp [semantic_search, h]
  · simp [semantic_search, h, pySlice]

/-- C7: if embedding generation fails — the embedder raises, or yields
an empty vector — retrieval returns the empty sequence for every store,
limit and context.  The model is a total function, reflecting that the
code catches the embedder's exception in `generate_query_embedding` and
returns early from `semantic_search`, never raising to the caller. -/
theorem C7_embedding_failure_empty (msg : String)
    (store store' : Int → List RawRecord) (limit limit' : Int)
    (uc uc' : Option UserContext) :
    semantic_search (.error msg) store limit uc = []
    ∧ semantic_search (.ok []) store' limit' uc' = [] := by
  constructor <;> simp [semantic_search, generate_query_embedding]

/-- C8: context fusion after a search leaves `viewedItems` completely
unchanged; only the product-view flow modifies it, appending the
identifier only when absent (an identifier already present leaves the
whole context untouched — no re-append, no recency refresh) and keeping
at most the most recent 50 entries. -/
theorem C8_viewed_items_frame (ctx : UserContext) (q r now : String)
    (rs : List SearchResult) (pid : Int) :
    (fuse_context ctx q r rs now).viewed_products = ctx.viewed_products
    ∧ (pid ∈ ctx.viewed_products → record_product_view ctx pid = ctx)
    ∧ (pid ∉ ctx.viewed_products →
        (record_product_view ctx pid).viewed_products =
          pyTakeLast 50 (ctx.viewed_products ++ [pid])
        ∧ (record_product_view ctx pid).viewed_products.length ≤ 50) := by
  refine ⟨rfl, ?_, ?_⟩
  · intro hv
    simp only [record_product_view, if_pos hv]
  · intro hv
    refine ⟨?_, ?_⟩
    · simp only [record_product_view, if_neg hv]
    · simp only [record_product_view, if_neg hv]
      exact pyTakeLast_length_le _ _

theorem C8_viewed_items_frame_witness :
    (42 : Int) ∈ ctxScenario.viewed_products
    ∧ record_product_view ctxScenario 42 = ctxScenario :=
  ⟨by decide,
    (C8_viewed_items_frame ctxScenario "q" "r" "t" [] 42).2.1 (by decide)⟩

/-- The ranking stage of `semantic_search` (lines 195–199): apply
`_personalize_results`, then the stable descending sort by score. -/
def rank (results : List SearchResult) (user_context : UserContext) :
    List SearchResult :=
  sortDesc (fun x => x.similarity_score)
    (personalize_results results user_context)

/-- C9: the personalization ranker is deterministic — value-identical
results and context always produce the same ordering and scores.  The
Python body reads nothing but its two arguments and performs no I/O;
its only effect, the in-place score update, is modelled by explicit
state passing, making `rank` a pure total function of its inputs. -/
theorem C9_rank_deterministic (results results' : List SearchResult)
    (ctx ctx' : UserContext) (h1 : results = results') (h2 : ctx = ctx') :
    rank results ctx = rank results' ctx' := by
  rw [h1, h2]

theorem C9_rank_deterministic_witness :
    rank ((storeScenario 2).filterMap toSearchResult) ctxScenario =
      rank ((storeScenario 2).filterMap toSearchResult) ctxScenario :=
  C9_rank_deterministic _ _ ctxScenario ctxScenario rfl rfl

/-- C10: for every queried product and every (non-negative) limit, the
per-product recommendation operation never includes the queried product
in its output, returns at most `limit` results, and returns the empty
sequence when the product is absent from the store or has no stored
embedding vector. -/
theorem C10_product_recommendations (find_one : Option ProductDoc)
    (neighbors : List ℚ → Int → List RawRecord) (product_id limit : Int)
    (h : 0 ≤ limit) :
    (∀ res ∈ get_recommendations_for_product find_one neighbors
        product_id limit, res.product_id ≠ product_id)
    ∧ ((get_recommendations_for_product find_one neighbors product_id
          limit).length : Int) ≤ limit
    ∧ (find_one = none →
        get_recommendations_for_product find_one neighbors product_id
          limit = [])
    ∧ (∀ p, find_one = some p → p.vector = none →
        get_recommendations_for_product find_one neighbors product_id
          limit = []) := by
  cases find_one with
  | none =>
    refine ⟨?_, ?_, fun _ => rfl, ?_⟩
    · intro res hres
      simp [get_recommendations_for_product] at hres
    · simp only [get_recommendations_for_product, List.length_nil,
        Int.natCast_zero]
      exact h
    · intro p hp
      exact absurd hp (by simp)
  | some product =>
    cases hv : product.vector with
    | none =>
      have he : get_recommendations_for_product (some product) neighbors
          product_id limit = [] := by
        simp only [get_recommendations_for_product, hv]
      refine ⟨?_, ?_, ?_, ?_⟩
      · intro res hres
        rw [he] at hres
        simp at hres
      · rw [he]
        simpa using h
      · intro hp
        exact absurd hp (by simp)
      · intro p hp hpv
        exact he
    | some v =>
      cases hc : collectRecs product_id (neighbors v (limit + 1)) with
      | none =>
        have he : get_recommendations_for_product (some product) neighbors
            product_id limit = [] := by
          simp only [get_recommendations_for_product, hv, hc]
        refine ⟨?_, ?_, ?_, ?_⟩
        · intro res hres
          rw [he] at hres
          simp at hres
        · rw [he]
          simpa using h
        · intro hp
          exact absurd hp (by simp)
        · intro p hp hpv
          cases hp
          rw [hpv] at hv
          exact absurd hv (by simp)
      | some recs =>
        have he : get_recommendations_for_product (some product) neighbors
            product_id limit = pySlice limit recs := by
          simp only [get_recommendations_for_product, hv, hc]
        refine ⟨?_, ?_, ?_, ?_⟩
        · intro res hres
          rw [he] at hres
          exact collectRecs_excludes product_id _ recs hc res
            (pySlice_subset _ _ hres)
        · rw [he]
          exact pySlice_length_le _ _ h
        · intro hp
          exact absurd hp (by simp)
        · intro p hp hpv
          cases hp
          rw [hpv] at hv
          exact absurd hv (by simp)

theorem C10_product_recommendations_witness :
    (0 : Int) ≤ 1
    ∧ ((get_recommendations_for_product (some ⟨some [1]⟩)
          (fun _ _ => [raw42, raw7]) 42 1).length : Int) ≤ 1 :=
  ⟨by decide,
    (C10_product_recommendations (some ⟨some [1]⟩)
      (fun _ _ => [raw42, raw7]) 42 1 (by decide)).2.1⟩
